import Mathlib

/-!
# Verification of the Magic-UV flip/rotate UV transfer module

Shallow embedding of `src/magic_uv/op/flip_rotate_uv.py` and the two class
registries (`utils/bl_class_registry.py`, `utils/property_class_registry.py`).

Modelling conventions:
* A bmesh is a list of faces; a face is a list of loops plus its `select`
  flag.  `face.index` equals the face's position in `bm.faces` (the operator
  calls `ensure_lookup_table`, which establishes exactly this invariant).
* Per-loop, per-layer UV data (`l[layer].uv`, `l[layer].pin_uv`) is stored
  positionally: a `UVLayer` carries its name and its position `idx` into each
  loop's `layers` list.  The seam flag lives on the loop's edge; within one
  face each loop owns one edge, so it is modelled per loop.
* Python exceptions are modelled as `none` of an `Option` result;
  `_paste_uv`'s early `return -1` is `some (-1, _)`.
* UV coordinates are only ever copied and moved, never computed with, so
  their components are modelled as `Int`.
-/

/-- A 2D UV texture coordinate (components are only moved, never computed
with, so `Int` stands in for the host's floats). -/
structure UVCoord where
  u : Int
  v : Int
deriving DecidableEq

/-- One UV layer's data attached to a single loop: `l[layer].uv` and
`l[layer].pin_uv`. -/
structure LoopLayerData where
  uv : UVCoord
  pin_uv : Bool
deriving DecidableEq

/-- A loop (face corner): per-layer UV data indexed positionally by layer
index, and the seam flag of the edge this loop owns (`l.edge.seam`). -/
structure BMLoop where
  layers : List LoopLayerData
  edgeSeam : Bool
deriving DecidableEq

/-- A face: its `select` flag and its ordered loops. -/
structure BMFace where
  select : Bool
  loops : List BMLoop
deriving DecidableEq

/-- A UV layer of the mesh: its name and its position into each loop's
`layers` list. -/
structure UVLayer where
  name : String
  idx : Nat
deriving DecidableEq

/-- The mesh: its UV-layer list (`bm.loops.layers.uv`) and its faces in
index order. -/
structure BMesh where
  layers : List UVLayer
  faces : List BMFace
deriving DecidableEq

/-- The snapshot captured per face and layer by `_get_src_face_info`. -/
structure FaceInfo where
  index : Nat
  uvs : List UVCoord
  pin_uvs : List Bool
  seams : List Bool
deriving DecidableEq

/-- The correspondence strategy argument of `_paste_uv`. -/
inductive Strategy where
  | N_N
  | N_M
deriving DecidableEq

/-- `_get_uv_layer`: `None` if the mesh has no UV layer, else the verified
(first/active) layer. -/
def get_uv_layer (bm : BMesh) : Option UVLayer :=
  bm.layers.head?

/-- The working triple of parallel sequences `(suvs_fr, spuvs_fr, ss_fr)`
inside `_paste_uv`. -/
abbrev UVTriple := List UVCoord × List Bool × List Bool

/-- Python `list.pop()`: removes and returns the last element; `none` models
the `IndexError` on an empty list. -/
def popLast (xs : List α) : Option (α × List α) :=
  match xs.getLast? with
  | none => none
  | some a => some (a, xs.dropLast)

/-- One iteration of the rotate loop on a single sequence: `pop()` the last
element and `insert(0, _)` it at the front. -/
def rotOne (xs : List α) : Option (List α) :=
  (popLast xs).map (fun p => p.1 :: p.2)

/-- `r` iterations of the single-sequence rotate step. -/
def rotNs : Nat → List α → Option (List α)
  | 0, xs => some xs
  | r + 1, xs => (rotOne xs).bind (rotNs r)

/-- One iteration of `_paste_uv`'s rotate loop: pop the last element of each
of the three parallel sequences and insert it at the front (a failing pop
is the `IndexError` of the Python `pop()` on an empty list). -/
def rotateOnce (t : UVTriple) : Option UVTriple :=
  (rotOne t.1).bind fun us =>
    (rotOne t.2.1).bind fun ps =>
      (rotOne t.2.2).map fun ss => (us, ps, ss)

/-- `for _ in range(rotate): ...`: the rotate loop run `r` times. -/
def rotateN : Nat → UVTriple → Option UVTriple
  | 0, t => some t
  | r + 1, t => (rotateOnce t).bind (rotateN r)

/-- The flip step of `_paste_uv`: if `flip` is true, reverse the three
parallel sequences as a unit. -/
def flipStep (flip : Bool) (t : UVTriple) : UVTriple :=
  if flip then (t.1.reverse, t.2.1.reverse, t.2.2.reverse) else t

/-- The full per-face transform of `_paste_uv`: flip first, then the rotate
loop. -/
def transform (flip : Bool) (rotate : Nat) (t : UVTriple) : Option UVTriple :=
  rotateN rotate (flipStep flip t)

/-- How a destination face at position `idx` selects its source record:
`src_faces[idx % len(src_faces)]` for `N_M` (a zero length is Python's
`ZeroDivisionError`), `src_faces[idx]` for `N_N` (an out-of-range index is
Python's `IndexError`). -/
def selectSrc (strategy : Strategy) (src_faces : List FaceInfo) (idx : Nat) :
    Option FaceInfo :=
  match strategy with
  | .N_M => if src_faces.length = 0 then none
            else src_faces.get? (idx % src_faces.length)
  | .N_N => src_faces.get? idx

/-- Writing one transformed `(uv, pin, seam)` triple onto one loop:
`l[dlayer].uv = suv; l[dlayer].pin_uv = spuv; if copy_seams: l.edge.seam = ss`.
The layer index is valid for every loop of the mesh by construction, so the
out-of-range no-op of `List.set` is never exercised. -/
def writeLoop (dlayerIdx : Nat) (copy_seams : Bool) (l : BMLoop)
    (uv : UVCoord) (pin s : Bool) : BMLoop :=
  { layers := l.layers.set dlayerIdx ⟨uv, pin⟩,
    edgeSeam := if copy_seams then s else l.edgeSeam }

/-- The paste loop `for l, suv, spuv, ss in zip(face.loops, suvs_fr, spuvs_fr,
ss_fr)`: like Python's `zip`, it stops at the shortest sequence and leaves the
remaining loops untouched. -/
def zipWrite (dlayerIdx : Nat) (copy_seams : Bool) :
    List BMLoop → List UVCoord → List Bool → List Bool → List BMLoop
  | l :: ls, uv :: us, p :: ps, s :: ss =>
      writeLoop dlayerIdx copy_seams l uv p s ::
        zipWrite dlayerIdx copy_seams ls us ps ss
  | ls, _, _, _ => ls

/-- Pasting one transformed triple onto `bm.faces[dinfo["index"]]`: `none`
models the `IndexError` when the recorded face index is out of range. -/
def pasteFace (faces : List BMFace) (dIndex dlayerIdx : Nat) (copy_seams : Bool)
    (t : UVTriple) : Option (List BMFace) :=
  match faces.get? dIndex with
  | none => none
  | some f =>
      some (faces.set dIndex
        { f with loops := zipWrite dlayerIdx copy_seams f.loops t.1 t.2.1 t.2.2 })

/-- The inner loop of `_paste_uv` over one layer's destination records,
threading the face list.  `some (-1, _)` is the early `return -1` on a size
mismatch; `some (0, _)` means this layer's faces were all pasted; `none` is a
Python exception. -/
def pasteLayer (flip : Bool) (rotate : Nat) (copy_seams : Bool)
    (strategy : Strategy) (dlayerIdx : Nat) (src_faces : List FaceInfo) :
    Nat → List FaceInfo → List BMFace → Option (Int × List BMFace)
  | _, [], faces => some (0, faces)
  | idx, dinfo :: rest, faces =>
    match selectSrc strategy src_faces idx with
    | none => none
    | some sinfo =>
      if sinfo.uvs.length ≠ dinfo.uvs.length then some (-1, faces)
      else
        match transform flip rotate (sinfo.uvs, sinfo.pin_uvs, sinfo.seams) with
        | none => none
        | some t =>
          match pasteFace faces dinfo.index dlayerIdx copy_seams t with
          | none => none
          | some faces' =>
              pasteLayer flip rotate copy_seams strategy dlayerIdx src_faces
                (idx + 1) rest faces'

/-- Dictionary lookup `info[name]` on the ordered face-info collection. -/
def lookupInfo (info : List (String × List FaceInfo)) (name : String) :
    Option (List FaceInfo) :=
  (info.find? (fun p => p.1 = name)).map (fun p => p.2)

/-- The outer loop of `_paste_uv` over `zip(src_info.keys(), uv_layers)`:
completing a layer moves on to the next pair; a `-1` from the inner loop
returns immediately; a failed dictionary lookup is a Python `KeyError`. -/
def pasteLayers (flip : Bool) (rotate : Nat) (copy_seams : Bool)
    (strategy : Strategy) (src_info dest_info : List (String × List FaceInfo)) :
    List (String × UVLayer) → List BMFace → Option (Int × List BMFace)
  | [], faces => some (0, faces)
  | (sname, dlayer) :: rest, faces =>
    match lookupInfo src_info sname, lookupInfo dest_info dlayer.name with
    | some src_faces, some dest_faces =>
      match pasteLayer flip rotate copy_seams strategy dlayer.idx src_faces
          0 dest_faces faces with
      | none => none
      | some (r, faces') =>
          if r ≠ 0 then some (r, faces')
          else pasteLayers flip rotate copy_seams strategy src_info dest_info
            rest faces'
    | _, _ => none

/-- `_paste_uv`: returns `0` on success and `-1` on the first loop-count
mismatch, together with the mesh as mutated so far; `none` is an uncaught
Python exception. -/
def paste_uv (bm : BMesh) (src_info dest_info : List (String × List FaceInfo))
    (uv_layers : List UVLayer) (strategy : Strategy) (flip : Bool)
    (rotate : Nat) (copy_seams : Bool) : Option (Int × BMesh) :=
  (pasteLayers flip rotate copy_seams strategy src_info dest_info
      (List.zip (src_info.map Prod.fst) uv_layers) bm.faces).map
    (fun p => (p.1, { bm with faces := p.2 }))

/-- The snapshot `_get_src_face_info` captures for one face: its index, the
layer's UV coordinates and pin flags in loop order, and the seam flag of each
loop's edge.  The per-layer read `l[layer]` is a positional lookup; the
default is never reached for a layer of the mesh. -/
def faceRecord (layer : UVLayer) (index : Nat) (f : BMFace) : FaceInfo :=
  { index := index,
    uvs := f.loops.map (fun l => (l.layers.getD layer.idx ⟨⟨0, 0⟩, false⟩).uv),
    pin_uvs := f.loops.map
      (fun l => (l.layers.getD layer.idx ⟨⟨0, 0⟩, false⟩).pin_uv),
    seams := f.loops.map (fun l => l.edgeSeam) }

/-- The face loop of `_get_src_face_info` for one layer, threading
`face.index` (equal to the face's position, see module header). -/
def layerFaceInfoGo (layer : UVLayer) (only_select : Bool) :
    Nat → List BMFace → List FaceInfo
  | _, [] => []
  | i, f :: fs =>
    if !only_select || f.select then
      faceRecord layer i f :: layerFaceInfoGo layer only_select (i + 1) fs
    else layerFaceInfoGo layer only_select (i + 1) fs

/-- `_get_src_face_info`: builds one record list per requested layer, in
layer order, returning `None` as soon as a layer collects zero faces. -/
def get_src_face_info (bm : BMesh) (uv_layers : List UVLayer)
    (only_select : Bool) : Option (List (String × List FaceInfo)) :=
  match uv_layers with
  | [] => some []
  | layer :: rest =>
    let fi := layerFaceInfoGo layer only_select 0 bm.faces
    if fi = [] then none
    else (get_src_face_info bm rest only_select).map
      (fun tl => (layer.name, fi) :: tl)

/-- One object of the edit session: its name and its mesh. -/
structure MeshObject where
  name : String
  bm : BMesh
deriving DecidableEq

/-- The operator's return status: `{'FINISHED'}` or `{'CANCELLED'}`. -/
inductive ExecStatus where
  | finished
  | cancelled
deriving DecidableEq

/-- The observable outcome of `MUV_OT_FlipRotateUV.execute`: the return
status, the reported warning (if any), the final per-object meshes, and the
reported face count. -/
structure ExecOutcome where
  status : ExecStatus
  warning : Option String
  objs : List MeshObject
  face_count : Nat
deriving DecidableEq

/-- `len(src_info[list(src_info.keys())[0]])`: the record count of the first
layer (the collection has exactly one key in this operator, so the empty case
is unreachable). -/
def countFirstLayer (src_info : List (String × List FaceInfo)) : Nat :=
  match src_info with
  | [] => 0
  | e :: _ => e.2.length

/-- The object loop of `MUV_OT_FlipRotateUV.execute`, carrying the processed
objects (in reverse) and the running face count.  `none` is an uncaught
Python exception from `_paste_uv`. -/
def executeGo (flip : Bool) (rotate : Nat) (seams : Bool) :
    List MeshObject → List MeshObject → Nat → Option ExecOutcome
  | [], done, count =>
      if count = 0 then
        some ⟨.cancelled, some "No faces are selected", done.reverse, 0⟩
      else some ⟨.finished, none, done.reverse, count⟩
  | obj :: rest, done, count =>
      match get_uv_layer obj.bm with
      | none =>
          some ⟨.cancelled,
            some ("Object " ++ obj.name ++ " must have more than one UV map"),
            done.reverse ++ obj :: rest, count⟩
      | some uv_layer =>
        match get_src_face_info obj.bm [uv_layer] true with
        | none => executeGo flip rotate seams rest (obj :: done) count
        | some src_info =>
          match paste_uv obj.bm src_info src_info [uv_layer] .N_N flip rotate
              seams with
          | none => none
          | some (r, bm') =>
            if r ≠ 0 then
              some ⟨.cancelled,
                some ("Some Object " ++ obj.name ++
                  "'s faces are different size"),
                done.reverse ++ { obj with bm := bm' } :: rest, count⟩
            else
              executeGo flip rotate seams rest ({ obj with bm := bm' } :: done)
                (count + countFirstLayer src_info)

/-- `MUV_OT_FlipRotateUV.execute` over the UV-editable objects. -/
def execute (flip : Bool) (rotate : Nat) (seams : Bool)
    (objs : List MeshObject) : Option ExecOutcome :=
  executeGo flip rotate seams objs [] 0

namespace BlClassRegistry

/-- One entry of `BlClassRegistry.class_list`: the dict
`{"bl_idname": ..., "class": ..., "legacy": ...}`.  The registered class
object is opaque to the registry, modelled as a token. -/
structure RegEntry where
  bl_idname : String
  cls : Nat
  legacy : Bool
deriving DecidableEq

/-- The duplicate-scan loop of `BlClassRegistry.add_class`: the message of
the first `RuntimeError` raised, if any. -/
def findDup : List RegEntry → String → Bool → Option String
  | [], _, _ => none
  | e :: rest, bl_idname, legacy =>
    if e.bl_idname = bl_idname ∧ e.legacy = legacy then
      some (bl_idname ++ " is already registered")
    else findDup rest bl_idname legacy

/-- `BlClassRegistry.add_class`: raising the `RuntimeError` (`.error`) leaves
`class_list` untouched, since the scan precedes the `append`; otherwise the
new entry is appended at the end. -/
def add_class (class_list : List RegEntry) (bl_idname : String) (op_class : Nat)
    (legacy : Bool) : Except String (List RegEntry) :=
  match findDup class_list bl_idname legacy with
  | some msg => .error msg
  | none => .ok (class_list ++ [⟨bl_idname, op_class, legacy⟩])

end BlClassRegistry

namespace PropertyClassRegistry

/-- One entry of `PropertyClassRegistry.class_list`: the dict
`{"idname": ..., "class": ..., "legacy": ...}`. -/
structure RegEntry where
  idname : String
  cls : Nat
  legacy : Bool
deriving DecidableEq

/-- The duplicate-scan loop of `PropertyClassRegistry.add_class`. -/
def findDup : List RegEntry → String → Bool → Option String
  | [], _, _ => none
  | e :: rest, idname, legacy =>
    if e.idname = idname ∧ e.legacy = legacy then
      some (idname ++ " is already registered")
    else findDup rest idname legacy

/-- `PropertyClassRegistry.add_class`: same shape as the bl-class variant. -/
def add_class (class_list : List RegEntry) (idname : String) (prop_class : Nat)
    (legacy : Bool) : Except String (List RegEntry) :=
  match findDup class_list idname legacy with
  | some msg => .error msg
  | none => .ok (class_list ++ [⟨idname, prop_class, legacy⟩])

end PropertyClassRegistry

/-! ## Lemmas about the rotate loop -/

theorem rotOne_concat (ys : List α) (a : α) :
    rotOne (ys ++ [a]) = some (a :: ys) := by
  simp [rotOne, popLast, List.getLast?_concat]

theorem rotNs_add (m k : Nat) (xs : List α) :
    rotNs (m + k) xs = (rotNs m xs).bind (rotNs k) := by
  induction m generalizing xs with
  | zero => simp [rotNs]
  | succ m ih =>
    have h : m + 1 + k = (m + k) + 1 := by omega
    rw [h]
    show (rotOne xs).bind (rotNs (m + k)) = ((rotOne xs).bind (rotNs m)).bind (rotNs k)
    cases rotOne xs with
    | none => rfl
    | some ys => simp [ih]

theorem rotNs_closed_form (xs : List α) (r : Nat) (h : r ≤ xs.length) :
    rotNs r xs =
      some (xs.drop (xs.length - r) ++ xs.take (xs.length - r)) := by
  induction r with
  | zero => simp [rotNs]
  | succ r ih =>
    have hr : r ≤ xs.length := Nat.le_of_succ_le h
    have hm : xs.length - r = (xs.length - (r + 1)) + 1 := by omega
    have hlt : xs.length - (r + 1) < xs.length := by omega
    have h1 : rotNs (r + 1) xs = (rotNs r xs).bind (rotNs 1) := by
      have := rotNs_add r 1 xs
      simpa using this
    rw [h1, ih hr]
    have h2 : rotNs 1 (xs.drop (xs.length - r) ++ xs.take (xs.length - r)) =
        rotOne (xs.drop (xs.length - r) ++ xs.take (xs.length - r)) := by
      simp [rotNs]
    simp only [Option.bind_some] at *
    rw [show (some (xs.drop (xs.length - r) ++ xs.take (xs.length - r))).bind
          (rotNs 1) = rotNs 1 (xs.drop (xs.length - r) ++ xs.take (xs.length - r))
        from rfl, h2]
    rw [hm]
    rw [List.take_succ]
    have hget : xs[xs.length - (r + 1)]? = some (xs.get ⟨xs.length - (r + 1), hlt⟩) := by
      simp [List.getElem?_eq_getElem hlt]
    rw [hget]
    simp only [Option.toList_some]
    rw [show xs.drop (xs.length - (r + 1) + 1) ++
          (xs.take (xs.length - (r + 1)) ++ [xs.get ⟨xs.length - (r + 1), hlt⟩]) =
        (xs.drop (xs.length - (r + 1) + 1) ++ xs.take (xs.length - (r + 1))) ++
          [xs.get ⟨xs.length - (r + 1), hlt⟩] from by simp]
    rw [rotOne_concat]
    have hco : xs.get ⟨xs.length - (r + 1), hlt⟩ ::
        (xs.drop (xs.length - (r + 1) + 1) ++ xs.take (xs.length - (r + 1))) =
        xs.drop (xs.length - (r + 1)) ++ xs.take (xs.length - (r + 1)) := by
      rw [List.drop_eq_getElem_cons hlt]
      simp only [List.get_eq_getElem, List.cons_append]
    rw [hco]

theorem rotNs_full (xs : List α) : rotNs xs.length xs = some xs := by
  have := rotNs_closed_form xs xs.length (Nat.le_refl _)
  simpa using this

theorem rotNs_cycle_aux (xs : List α) (a q : Nat) :
    rotNs (a + xs.length * q) xs = rotNs a xs := by
  induction q with
  | zero => rfl
  | succ q ih =>
    have h : a + xs.length * (q + 1) = xs.length + (a + xs.length * q) := by ring
    rw [h, rotNs_add, rotNs_full]
    simpa using ih

theorem rotNs_mod (xs : List α) (r : Nat) (h : xs ≠ []) :
    rotNs r xs = rotNs (r % xs.length) xs := by
  have hn : 0 < xs.length := List.length_pos.mpr h
  conv_lhs => rw [show r = r % xs.length + xs.length * (r / xs.length) from
    (Nat.mod_add_div r xs.length).symm]
  exact rotNs_cycle_aux xs _ _

theorem rotNs_isSome (xs : List α) (r : Nat) (h : xs ≠ []) :
    (rotNs r xs).isSome := by
  have hn : 0 < xs.length := List.length_pos.mpr h
  rw [rotNs_mod xs r h]
  rw [rotNs_closed_form xs (r % xs.length)
    (Nat.le_of_lt (Nat.mod_lt r hn))]
  rfl

theorem rotateN_eq_components (r : Nat) (us : List UVCoord) (ps ss : List Bool) :
    rotateN r (us, ps, ss) =
      (rotNs r us).bind fun us' =>
        (rotNs r ps).bind fun ps' =>
          (rotNs r ss).map fun ss' => (us', ps', ss') := by
  induction r generalizing us ps ss with
  | zero => simp [rotateN, rotNs]
  | succ r ih =>
    show (rotateOnce (us, ps, ss)).bind (rotateN r) = _
    cases hu : rotOne us with
    | none => simp [rotateOnce, rotNs, hu]
    | some us' =>
      cases hp : rotOne ps with
      | none => simp [rotateOnce, rotNs, hu, hp]
      | some ps' =>
        cases hs : rotOne ss with
        | none => simp [rotateOnce, rotNs, hu, hp, hs]
        | some ss' =>
          simp only [rotateOnce, hu, hp, hs, Option.bind_some, Option.map_some,
            Option.some_bind]
          rw [show rotNs (r + 1) us = (rotOne us).bind (rotNs r) from rfl,
            show rotNs (r + 1) ps = (rotOne ps).bind (rotNs r) from rfl,
            show rotNs (r + 1) ss = (rotOne ss).bind (rotNs r) from rfl,
            hu, hp, hs]
          simp only [Option.some_bind]
          exact ih us' ps' ss'

theorem rotateN_add (m k : Nat) (t : UVTriple) :
    rotateN (m + k) t = (rotateN m t).bind (rotateN k) := by
  induction m generalizing t with
  | zero => simp [rotateN]
  | succ m ih =>
    have h : m + 1 + k = (m + k) + 1 := by omega
    rw [h]
    show (rotateOnce t).bind (rotateN (m + k)) =
      ((rotateOnce t).bind (rotateN m)).bind (rotateN k)
    cases rotateOnce t with
    | none => rfl
    | some t' => simp [ih]

/-! ## Claim theorems: the flip and rotate steps -/

/-- C2: for every triple `(uvs, pins, seams)` of common length `n ≥ 1` and
every `r ≥ 0`, the rotate step (move-last-to-front, `r` times) equals
rotating by `r % n`; `rotate = 0` and `rotate = n` are the identity, and
rotating by `k` and then by `n - k` restores the original order. -/
theorem rotate_step_mod_cyclic (us : List UVCoord) (ps ss : List Bool)
    (n : Nat) (hu : us.length = n) (hp : ps.length = n) (hs : ss.length = n)
    (hn : 1 ≤ n) (r : Nat) :
    rotateN r (us, ps, ss) = rotateN (r % n) (us, ps, ss) ∧
    rotateN 0 (us, ps, ss) = some (us, ps, ss) ∧
    rotateN n (us, ps, ss) = some (us, ps, ss) ∧
    ∀ k, k ≤ n →
      (rotateN k (us, ps, ss)).bind (rotateN (n - k)) = some (us, ps, ss) := by
  have hne : ∀ (β : Type) (xs : List β), xs.length = n → xs ≠ [] := by
    intro β xs hx hcon
    rw [hcon] at hx
    simp at hx
    omega
  have hfull : rotateN n (us, ps, ss) = some (us, ps, ss) := by
    rw [rotateN_eq_components, ← hu, rotNs_full, hu, ← hp, rotNs_full, hp,
      ← hs, rotNs_full]
    rfl
  refine ⟨?_, rfl, hfull, ?_⟩
  · rw [rotateN_eq_components, rotateN_eq_components,
      rotNs_mod us r (hne _ us hu), rotNs_mod ps r (hne _ ps hp),
      rotNs_mod ss r (hne _ ss hs), hu, hp, hs]
  · intro k hk
    rw [← rotateN_add, Nat.add_sub_cancel' hk]
    exact hfull

/-- Witness for C2 at a concrete quad: rotating by 7 equals rotating by 3,
and rotating by 1 then by 3 restores the original triple. -/
theorem rotate_step_mod_cyclic_witness :
    rotateN 7 ([⟨0, 0⟩, ⟨1, 0⟩, ⟨1, 1⟩, ⟨0, 1⟩], [true, false, false, false],
        [false, false, true, false]) =
      rotateN 3 ([⟨0, 0⟩, ⟨1, 0⟩, ⟨1, 1⟩, ⟨0, 1⟩], [true, false, false, false],
        [false, false, true, false]) ∧
    (rotateN 1 ([⟨0, 0⟩, ⟨1, 0⟩, ⟨1, 1⟩, ⟨0, 1⟩], [true, false, false, false],
        [false, false, true, false])).bind (rotateN 3) =
      some ([⟨0, 0⟩, ⟨1, 0⟩, ⟨1, 1⟩, ⟨0, 1⟩], [true, false, false, false],
        [false, false, true, false]) :=
  ⟨(rotate_step_mod_cyclic [⟨0, 0⟩, ⟨1, 0⟩, ⟨1, 1⟩, ⟨0, 1⟩]
      [true, false, false, false] [false, false, true, false] 4 rfl rfl rfl
      (by norm_num) 7).1,
   (rotate_step_mod_cyclic [⟨0, 0⟩, ⟨1, 0⟩, ⟨1, 1⟩, ⟨0, 1⟩]
      [true, false, false, false] [false, false, true, false] 4 rfl rfl rfl
      (by norm_num) 7).2.2.2 1 (by norm_num)⟩

/-- C1 counterexample: on a quad face (n = 4) with rotate = 4 ≥ n, the
rotate step completes normally (returning the original triple) instead of
raising an index/empty-pop error — each iteration re-inserts the popped
element, so the sequences are never exhausted. -/
theorem rotate_overflow_counterexample :
    rotateN 4 ([⟨0, 0⟩, ⟨1, 0⟩, ⟨1, 1⟩, ⟨0, 1⟩], [false, false, false, false],
        [false, false, true, false]) =
      some ([⟨0, 0⟩, ⟨1, 0⟩, ⟨1, 1⟩, ⟨0, 1⟩], [false, false, false, false],
        [false, false, true, false]) := by
  decide

/-- C1 amended: the engine applies no modulo to `r` before rotating (it runs
`r` single-step iterations), but for every face whose sequences have common
length `n ≥ 1` and every `r ≥ n` the rotate step completes successfully
rather than raising, because each iteration re-inserts the popped element. -/
theorem rotate_overflow_amended (us : List UVCoord) (ps ss : List Bool)
    (n r : Nat) (hu : us.length = n) (hp : ps.length = n) (hs : ss.length = n)
    (hn : 1 ≤ n) (_hr : n ≤ r) :
    (rotateN r (us, ps, ss)).isSome := by
  have hne : ∀ (β : Type) (xs : List β), xs.length = n → xs ≠ [] := by
    intro β xs hx hcon
    rw [hcon] at hx
    simp at hx
    omega
  rw [rotateN_eq_components]
  obtain ⟨us', h1⟩ := Option.isSome_iff_exists.mp (rotNs_isSome us r (hne _ us hu))
  obtain ⟨ps', h2⟩ := Option.isSome_iff_exists.mp (rotNs_isSome ps r (hne _ ps hp))
  obtain ⟨ss', h3⟩ := Option.isSome_iff_exists.mp (rotNs_isSome ss r (hne _ ss hs))
  simp [h1, h2, h3]

/-- Witness for the amended C1: rotating a 1-loop face 5 times succeeds. -/
theorem rotate_overflow_amended_witness :
    (rotateN 5 ([⟨0, 0⟩], [true], [false])).isSome :=
  rotate_overflow_amended [⟨0, 0⟩] [true] [false] 1 5 rfl rfl rfl
    (by norm_num) (by norm_num)

/-- C8: applying the flip step (reversing the three parallel sequences as a
unit) twice returns the uvs, pins, and seams sequences to their original
order, for every face record. -/
theorem flip_involution (b : Bool) (us : List UVCoord) (ps ss : List Bool) :
    flipStep b (flipStep b (us, ps, ss)) = (us, ps, ss) := by
  cases b <;> simp [flipStep]

/-- C7: the engine's per-face transform applies flip before rotate (by its
very definition), and there is a loop-count-4 face record and a
`(flip, rotate)` pair on which flip-then-rotate differs from
rotate-then-flip. -/
theorem flip_before_rotate :
    (∀ (flip : Bool) (r : Nat) (t : UVTriple),
        transform flip r t = rotateN r (flipStep flip t)) ∧
    ∃ (t : UVTriple) (flip : Bool) (r : Nat),
      t.1.length = 4 ∧ t.2.1.length = 4 ∧ t.2.2.length = 4 ∧
      rotateN r (flipStep flip t) ≠ (rotateN r t).map (flipStep flip) := by
  refine ⟨fun _ _ _ => rfl,
    ⟨([⟨0, 0⟩, ⟨1, 0⟩, ⟨1, 1⟩, ⟨0, 1⟩], [false, false, false, false],
        [false, false, true, false]), true, 1, rfl, rfl, rfl, ?_⟩⟩
  decide

/-! ## Claim theorem: the concrete example scenario -/

/-- The single UV layer of the example mesh, at position 0. -/
def exampleLayer : UVLayer := ⟨"UVMap", 0⟩

/-- A loop of the example quad: one layer's `(uv, pin)` data plus the seam
flag of its edge. -/
def exampleLoop (u v : Int) (s : Bool) : BMLoop :=
  ⟨[⟨⟨u, v⟩, false⟩], s⟩

/-- The example mesh: one selected quad with UVs
`[(0,0),(1,0),(1,1),(0,1)]` and seams `[F,F,T,F]`. -/
def exampleBM : BMesh :=
  ⟨[exampleLayer],
   [⟨true, [exampleLoop 0 0 false, exampleLoop 1 0 false,
            exampleLoop 1 1 true, exampleLoop 0 1 false]⟩]⟩

/-- The face-info snapshot the extractor takes of `exampleBM`. -/
def exampleSrcInfo : List (String × List FaceInfo) :=
  [("UVMap",
    [⟨0, [⟨0, 0⟩, ⟨1, 0⟩, ⟨1, 1⟩, ⟨0, 1⟩], [false, false, false, false],
      [false, false, true, false]⟩])]

/-- The expected mesh after flip = true, rotate = 1, copy_seams = true:
UVs `[(0,0),(0,1),(1,1),(1,0)]`, seams `[F,F,T,F]`. -/
def examplePasted : BMesh :=
  ⟨[exampleLayer],
   [⟨true, [exampleLoop 0 0 false, exampleLoop 0 1 false,
            exampleLoop 1 1 true, exampleLoop 1 0 false]⟩]⟩

/-- C3: on the quad with UVs `[(0,0),(1,0),(1,1),(0,1)]` and seams
`[F,F,T,F]`, the self-transfer with flip = true, rotate = 1,
copy_seams = true succeeds and writes UVs `[(0,0),(0,1),(1,1),(1,0)]` and
seams `[F,F,T,F]` onto the destination face's loops, in order. -/
theorem example_scenario_flip_rotate :
    get_src_face_info exampleBM [exampleLayer] true = some exampleSrcInfo ∧
    paste_uv exampleBM exampleSrcInfo exampleSrcInfo [exampleLayer] .N_N
      true 1 true = some (0, examplePasted) :=
  ⟨rfl, rfl⟩

/-! ## Claim theorem: size-mismatch abort -/

/-- C4: when the per-face loop reaches a source/destination pair whose uvs
lengths differ, `_paste_uv` returns the `-1` size-mismatch failure
immediately with the face list exactly as accumulated: nothing is written
for the mismatching destination face, and faces written earlier in the run
keep their values. -/
theorem paste_size_mismatch (flip : Bool) (rotate : Nat) (copy_seams : Bool)
    (strategy : Strategy) (dlayerIdx : Nat) (src_faces : List FaceInfo)
    (idx : Nat) (sinfo dinfo : FaceInfo) (rest : List FaceInfo)
    (faces : List BMFace)
    (hsel : selectSrc strategy src_faces idx = some sinfo)
    (hlen : sinfo.uvs.length ≠ dinfo.uvs.length) :
    pasteLayer flip rotate copy_seams strategy dlayerIdx src_faces idx
      (dinfo :: rest) faces = some (-1, faces) := by
  simp [pasteLayer, hsel, hlen]

/-- Witness for C4: a 3-loop source record paired with a 4-loop destination
record yields `-1` and returns the accumulated face list unchanged. -/
theorem paste_size_mismatch_witness :
    pasteLayer false 0 true .N_N 0
      [⟨0, [⟨0, 0⟩, ⟨1, 0⟩, ⟨1, 1⟩], [false, false, false],
        [false, false, false]⟩]
      0
      [⟨0, [⟨0, 0⟩, ⟨1, 0⟩, ⟨1, 1⟩, ⟨0, 1⟩], [false, false, false, false],
        [false, false, false, false]⟩]
      [⟨true, [exampleLoop 5 5 true]⟩] =
    some (-1, [⟨true, [exampleLoop 5 5 true]⟩]) :=
  paste_size_mismatch false 0 true .N_N 0
    [⟨0, [⟨0, 0⟩, ⟨1, 0⟩, ⟨1, 1⟩], [false, false, false],
      [false, false, false]⟩]
    0
    ⟨0, [⟨0, 0⟩, ⟨1, 0⟩, ⟨1, 1⟩], [false, false, false], [false, false, false]⟩
    ⟨0, [⟨0, 0⟩, ⟨1, 0⟩, ⟨1, 1⟩, ⟨0, 1⟩], [false, false, false, false],
      [false, false, false, false]⟩
    [] [⟨true, [exampleLoop 5 5 true]⟩] rfl (by decide)

/-! ## Claim theorems: the missing-UV-layer policy of `execute` -/

/-- An object whose mesh has no UV layer. -/
def noUVObj : MeshObject := ⟨"Bad", ⟨[], [⟨true, [exampleLoop 0 0 false]⟩]⟩⟩

/-- An object with a UV layer and a selected quad. -/
def goodObj : MeshObject := ⟨"Good", exampleBM⟩

/-- C5 counterexample: with a layerless object followed by a processable
one, `execute` cancels the whole run — the second object comes out
untouched — although processing it alone would have transformed it.  This
contradicts the claim that only the layerless object stops and the rest
continue. -/
theorem no_uv_layer_counterexample :
    execute true 1 true [noUVObj, goodObj] =
      some ⟨.cancelled, some "Object Bad must have more than one UV map",
        [noUVObj, goodObj], 0⟩ ∧
    execute true 1 true [goodObj] =
      some ⟨.finished, none, [⟨"Good", examplePasted⟩], 1⟩ ∧
    examplePasted ≠ exampleBM :=
  ⟨rfl, rfl, by decide⟩

/-- C5 amended: when the object loop meets an object with no UV layer, it
reports the warning naming that object and cancels the entire run at once:
objects already processed keep their accumulated changes, and neither this
object nor the remaining ones are processed. -/
theorem no_uv_layer_amended (flip : Bool) (rotate : Nat) (seams : Bool)
    (obj : MeshObject) (h : obj.bm.layers = []) (rest done : List MeshObject)
    (count : Nat) :
    executeGo flip rotate seams (obj :: rest) done count =
      some ⟨.cancelled,
        some ("Object " ++ obj.name ++ " must have more than one UV map"),
        done.reverse ++ obj :: rest, count⟩ := by
  simp [executeGo, get_uv_layer, h]

/-- Witness for the amended C5 with one already-processed object kept. -/
theorem no_uv_layer_amended_witness :
    executeGo false 0 true [noUVObj, goodObj] [goodObj] 3 =
      some ⟨.cancelled, some "Object Bad must have more than one UV map",
        [goodObj, noUVObj, goodObj], 3⟩ :=
  no_uv_layer_amended false 0 true noUVObj rfl [goodObj] [goodObj] 3

/-! ## Claim theorem: the class registries -/

theorem bl_findDup_none_iff (l : List BlClassRegistry.RegEntry)
    (idn : String) (leg : Bool) :
    BlClassRegistry.findDup l idn leg = none ↔
      ∀ e ∈ l, ¬(e.bl_idname = idn ∧ e.legacy = leg) := by
  induction l with
  | nil => simp [BlClassRegistry.findDup]
  | cons e rest ih =>
    by_cases he : e.bl_idname = idn ∧ e.legacy = leg
    · simp [BlClassRegistry.findDup, he]
    · simp only [BlClassRegistry.findDup, if_neg he, ih, List.mem_cons,
        forall_eq_or_imp]
      constructor
      · intro h
        exact ⟨fun hc => he hc, h⟩
      · intro h
        exact h.2

theorem bl_findDup_some (l : List BlClassRegistry.RegEntry)
    (idn : String) (leg : Bool)
    (h : ∃ e ∈ l, e.bl_idname = idn ∧ e.legacy = leg) :
    BlClassRegistry.findDup l idn leg = some (idn ++ " is already registered") := by
  induction l with
  | nil => simp at h
  | cons e rest ih =>
    by_cases he : e.bl_idname = idn ∧ e.legacy = leg
    · simp [BlClassRegistry.findDup, he]
    · simp only [List.mem_cons] at h
      obtain ⟨e', he', hdup⟩ := h
      cases he' with
      | inl hcon => rw [hcon] at hdup; exact absurd hdup he
      | inr hmem => simp [BlClassRegistry.findDup, he, ih ⟨e', hmem, hdup⟩]

theorem prop_findDup_none_iff (l : List PropertyClassRegistry.RegEntry)
    (idn : String) (leg : Bool) :
    PropertyClassRegistry.findDup l idn leg = none ↔
      ∀ e ∈ l, ¬(e.idname = idn ∧ e.legacy = leg) := by
  induction l with
  | nil => simp [PropertyClassRegistry.findDup]
  | cons e rest ih =>
    by_cases he : e.idname = idn ∧ e.legacy = leg
    · simp [PropertyClassRegistry.findDup, he]
    · simp only [PropertyClassRegistry.findDup, if_neg he, ih, List.mem_cons,
        forall_eq_or_imp]
      constructor
      · intro h
        exact ⟨fun hc => he hc, h⟩
      · intro h
        exact h.2

theorem prop_findDup_some (l : List PropertyClassRegistry.RegEntry)
    (idn : String) (leg : Bool)
    (h : ∃ e ∈ l, e.idname = idn ∧ e.legacy = leg) :
    PropertyClassRegistry.findDup l idn leg =
      some (idn ++ " is already registered") := by
  induction l with
  | nil => simp at h
  | cons e rest ih =>
    by_cases he : e.idname = idn ∧ e.legacy = leg
    · simp [PropertyClassRegistry.findDup, he]
    · simp only [List.mem_cons] at h
      obtain ⟨e', he', hdup⟩ := h
      cases he' with
      | inl hcon => rw [hcon] at hdup; exact absurd hdup he
      | inr hmem => simp [PropertyClassRegistry.findDup, he, ih ⟨e', hmem, hdup⟩]

/-- C10: for both registries, adding a class whose identifier and legacy
flag both match an already-registered entry raises the `RuntimeError`
(modelled as `.error`, raised before any mutation, so the class list is
unchanged); adding a class with a fresh `(identifier, legacy)` pair appends
exactly one entry at the end, preserving the order of the existing
entries. -/
theorem registry_add_class_spec :
    (∀ (l : List BlClassRegistry.RegEntry) (idn : String) (c : Nat)
        (leg : Bool),
      ((∃ e ∈ l, e.bl_idname = idn ∧ e.legacy = leg) →
        BlClassRegistry.add_class l idn c leg =
          .error (idn ++ " is already registered")) ∧
      ((∀ e ∈ l, ¬(e.bl_idname = idn ∧ e.legacy = leg)) →
        BlClassRegistry.add_class l idn c leg = .ok (l ++ [⟨idn, c, leg⟩]))) ∧
    (∀ (l : List PropertyClassRegistry.RegEntry) (idn : String) (c : Nat)
        (leg : Bool),
      ((∃ e ∈ l, e.idname = idn ∧ e.legacy = leg) →
        PropertyClassRegistry.add_class l idn c leg =
          .error (idn ++ " is already registered")) ∧
      ((∀ e ∈ l, ¬(e.idname = idn ∧ e.legacy = leg)) →
        PropertyClassRegistry.add_class l idn c leg =
          .ok (l ++ [⟨idn, c, leg⟩]))) := by
  constructor
  · intro l idn c leg
    constructor
    · intro h
      simp [BlClassRegistry.add_class, bl_findDup_some l idn leg h]
    · intro h
      simp [BlClassRegistry.add_class, (bl_findDup_none_iff l idn leg).mpr h]
  · intro l idn c leg
    constructor
    · intro h
      simp [PropertyClassRegistry.add_class, prop_findDup_some l idn leg h]
    · intro h
      simp [PropertyClassRegistry.add_class, (prop_findDup_none_iff l idn leg).mpr h]

/-- Witness for C10: a duplicate `(identifier, legacy)` pair errors, and a
fresh one appends at the end behind the existing entry, for both
registries. -/
theorem registry_add_class_spec_witness :
    BlClassRegistry.add_class [⟨"uv.op", 0, false⟩] "uv.op" 1 false =
      .error "uv.op is already registered" ∧
    BlClassRegistry.add_class [⟨"uv.op", 0, false⟩] "uv.op" 1 true =
      .ok [⟨"uv.op", 0, false⟩, ⟨"uv.op", 1, true⟩] ∧
    PropertyClassRegistry.add_class [⟨"flip_rotate_uv", 0, false⟩]
        "flip_rotate_uv" 1 false =
      .error "flip_rotate_uv is already registered" ∧
    PropertyClassRegistry.add_class [⟨"flip_rotate_uv", 0, false⟩] "uv_bbox" 1
        false =
      .ok [⟨"flip_rotate_uv", 0, false⟩, ⟨"uv_bbox", 1, false⟩] :=
  ⟨(registry_add_class_spec.1 [⟨"uv.op", 0, false⟩] "uv.op" 1 false).1
      ⟨⟨"uv.op", 0, false⟩, by simp⟩,
   (registry_add_class_spec.1 [⟨"uv.op", 0, false⟩] "uv.op" 1 true).2
      (by simp),
   (registry_add_class_spec.2 [⟨"flip_rotate_uv", 0, false⟩]
        "flip_rotate_uv" 1 false).1
      ⟨⟨"flip_rotate_uv", 0, false⟩, by simp⟩,
   (registry_add_class_spec.2 [⟨"flip_rotate_uv", 0, false⟩] "uv_bbox" 1
        false).2 (by simp)⟩

/-! ## Claim theorem: seam propagation gating -/

/-- The per-face, per-loop seam flags of a face list. -/
def facesSeams (faces : List BMFace) : List (List Bool) :=
  faces.map (fun f => f.loops.map (fun l => l.edgeSeam))

/-- The per-face, per-loop seam flags of the mesh. -/
def bmSeams (bm : BMesh) : List (List Bool) :=
  facesSeams bm.faces

theorem zipWrite_seams_false (dlayerIdx : Nat) (ls : List BMLoop)
    (us : List UVCoord) (ps ss : List Bool) :
    (zipWrite dlayerIdx false ls us ps ss).map (fun l => l.edgeSeam) =
      ls.map (fun l => l.edgeSeam) := by
  induction ls generalizing us ps ss with
  | nil => cases us <;> cases ps <;> cases ss <;> rfl
  | cons l ls ih =>
    cases us with
    | nil => rfl
    | cons uv us =>
      cases ps with
      | nil => rfl
      | cons p ps =>
        cases ss with
        | nil => rfl
        | cons s ss => simp [zipWrite, writeLoop, ih]

theorem list_set_get?_eq {β : Type} (l : List β) (i : Nat) (b : β)
    (h : l.get? i = some b) : l.set i b = l := by
  induction l generalizing i with
  | nil => simp at h
  | cons a rest ih =>
    cases i with
    | zero =>
      simp only [List.get?_cons_zero, Option.some_inj] at h
      simp [h]
    | succ i =>
      simp only [List.get?_cons_succ] at h
      simp [ih i h]

theorem pasteFace_seams_false (faces : List BMFace) (dIndex dlayerIdx : Nat)
    (t : UVTriple) (faces' : List BMFace)
    (h : pasteFace faces dIndex dlayerIdx false t = some faces') :
    facesSeams faces' = facesSeams faces := by
  unfold pasteFace at h
  cases hg : faces.get? dIndex with
  | none => rw [hg] at h; simp at h
  | some f =>
    rw [hg] at h
    simp only [Option.some_inj] at h
    subst h
    unfold facesSeams
    rw [List.map_set]
    apply list_set_get?_eq
    have hg' : (faces.map (fun f => f.loops.map (fun l => l.edgeSeam))).get? dIndex =
        some (f.loops.map (fun l => l.edgeSeam)) := by
      rw [List.get?_eq_getElem?, List.getElem?_map, ← List.get?_eq_getElem?, hg]
      rfl
    rw [hg']
    simp [zipWrite_seams_false]

theorem pasteLayer_seams_false (flip : Bool) (rotate : Nat)
    (strategy : Strategy) (dlayerIdx : Nat) (src_faces : List FaceInfo)
    (dest : List FaceInfo) :
    ∀ (idx : Nat) (faces : List BMFace) (r : Int) (faces' : List BMFace),
    pasteLayer flip rotate false strategy dlayerIdx src_faces idx dest faces =
      some (r, faces') →
    facesSeams faces' = facesSeams faces := by
  induction dest with
  | nil =>
    intro idx faces r faces' h
    simp only [pasteLayer, Option.some_inj, Prod.mk.injEq] at h
    rw [h.2]
  | cons dinfo rest ih =>
    intro idx faces r faces' h
    unfold pasteLayer at h
    cases hsel : selectSrc strategy src_faces idx with
    | none => rw [hsel] at h; simp at h
    | some sinfo =>
      rw [hsel] at h
      simp only at h
      by_cases hlen : sinfo.uvs.length ≠ dinfo.uvs.length
      · rw [if_pos hlen] at h
        simp only [Option.some_inj, Prod.mk.injEq] at h
        rw [h.2]
      · rw [if_neg hlen] at h
        cases ht : transform flip rotate (sinfo.uvs, sinfo.pin_uvs, sinfo.seams) with
        | none => rw [ht] at h; simp at h
        | some t =>
          rw [ht] at h
          simp only at h
          cases hpf : pasteFace faces dinfo.index dlayerIdx false t with
          | none => rw [hpf] at h; simp at h
          | some faces₁ =>
            rw [hpf] at h
            simp only at h
            rw [ih (idx + 1) faces₁ r faces' h]
            exact pasteFace_seams_false faces dinfo.index dlayerIdx t faces₁ hpf

theorem pasteLayers_seams_false (flip : Bool) (rotate : Nat)
    (strategy : Strategy) (src_info dest_info : List (String × List FaceInfo))
    (pairs : List (String × UVLayer)) :
    ∀ (faces : List BMFace) (r : Int) (faces' : List BMFace),
    pasteLayers flip rotate false strategy src_info dest_info pairs faces =
      some (r, faces') →
    facesSeams faces' = facesSeams faces := by
  induction pairs with
  | nil =>
    intro faces r faces' h
    simp only [pasteLayers, Option.some_inj, Prod.mk.injEq] at h
    rw [h.2]
  | cons pr rest ih =>
    intro faces r faces' h
    unfold pasteLayers at h
    cases hl1 : lookupInfo src_info pr.1 with
    | none => rw [hl1] at h; simp at h
    | some src_faces =>
      cases hl2 : lookupInfo dest_info pr.2.name with
      | none => rw [hl1, hl2] at h; simp at h
      | some dest_faces =>
        rw [hl1, hl2] at h
        simp only at h
        cases hpl : pasteLayer flip rotate false strategy pr.2.idx src_faces
            0 dest_faces faces with
        | none => rw [hpl] at h; simp at h
        | some q =>
          rw [hpl] at h
          simp only at h
          have hq := pasteLayer_seams_false flip rotate strategy pr.2.idx
            src_faces dest_faces 0 faces q.1 q.2 (by rw [hpl])
          by_cases hr : q.1 ≠ 0
          · rw [if_pos hr] at h
            simp only [Option.some_inj, Prod.mk.injEq] at h
            rw [h.2] at hq
            exact hq
          · rw [if_neg hr] at h
            rw [ih q.2 r faces' h]
            exact hq

theorem zipWrite_seams_true (dlayerIdx : Nat) (ls : List BMLoop)
    (us : List UVCoord) (ps ss : List Bool) (k : Nat)
    (h1 : k < ls.length) (h2 : k < us.length) (h3 : k < ps.length)
    (h4 : k < ss.length) :
    ((zipWrite dlayerIdx true ls us ps ss).get? k).map (fun l => l.edgeSeam) =
      ss.get? k := by
  induction ls generalizing us ps ss k with
  | nil => simp at h1
  | cons l ls ih =>
    cases us with
    | nil => simp at h2
    | cons uv us =>
      cases ps with
      | nil => simp at h3
      | cons p ps =>
        cases ss with
        | nil => simp at h4
        | cons s ss =>
          cases k with
          | zero => simp [zipWrite, writeLoop]
          | succ k =>
            simp only [zipWrite, List.get?_cons_succ]
            exact ih us ps ss k (by simpa using h1) (by simpa using h2)
              (by simpa using h3) (by simpa using h4)

/-- C6: seam propagation is gated on `copy_seams`.  With
`copy_seams = false`, a completed `_paste_uv` run (success or mismatch
abort) leaves every loop's edge seam flag unchanged, whatever the source
seam values; with `copy_seams = true`, the paste loop sets each touched
loop's edge seam flag to the corresponding transformed source seam value. -/
theorem copy_seams_gating :
    (∀ (bm : BMesh) (src_info dest_info : List (String × List FaceInfo))
        (uv_layers : List UVLayer) (strategy : Strategy) (flip : Bool)
        (rotate : Nat) (r : Int) (bm' : BMesh),
        paste_uv bm src_info dest_info uv_layers strategy flip rotate false =
          some (r, bm') →
        bmSeams bm' = bmSeams bm) ∧
    (∀ (dlayerIdx : Nat) (ls : List BMLoop) (us : List UVCoord)
        (ps ss : List Bool) (k : Nat),
        k < ls.length → k < us.length → k < ps.length → k < ss.length →
        ((zipWrite dlayerIdx true ls us ps ss).get? k).map
          (fun l => l.edgeSeam) = ss.get? k) := by
  constructor
  · intro bm src_info dest_info uv_layers strategy flip rotate r bm' h
    unfold paste_uv at h
    cases hpl : pasteLayers flip rotate false strategy src_info dest_info
        (List.zip (src_info.map Prod.fst) uv_layers) bm.faces with
    | none => rw [hpl] at h; simp at h
    | some q =>
      rw [hpl] at h
      simp at h
      have hq := pasteLayers_seams_false flip rotate strategy src_info
        dest_info (List.zip (src_info.map Prod.fst) uv_layers) bm.faces
        q.1 q.2 (by rw [hpl])
      rw [← h.2]
      exact hq
  · exact fun dlayerIdx ls us ps ss k h1 h2 h3 h4 =>
      zipWrite_seams_true dlayerIdx ls us ps ss k h1 h2 h3 h4

/-- Witness for C6: a concrete `copy_seams = false` run preserves the
example mesh's seam flags, and a concrete `copy_seams = true` write sets a
touched loop's seam to the transformed source value. -/
theorem copy_seams_gating_witness :
    bmSeams examplePasted = bmSeams exampleBM ∧
    ((zipWrite 0 true [exampleLoop 0 0 false, exampleLoop 1 0 false]
        [⟨2, 2⟩, ⟨3, 3⟩] [false, false] [true, true]).get? 0).map
      (fun l => l.edgeSeam) = some true :=
  ⟨copy_seams_gating.1 exampleBM exampleSrcInfo exampleSrcInfo [exampleLayer]
      .N_N true 1 0 examplePasted rfl,
   by
    have := copy_seams_gating.2 0
      [exampleLoop 0 0 false, exampleLoop 1 0 false] [⟨2, 2⟩, ⟨3, 3⟩]
      [false, false] [true, true] 0 (by norm_num) (by norm_num) (by norm_num)
      (by norm_num)
    rw [this]
    rfl⟩

/-! ## Claim theorem: the face-info extractor -/

theorem layerFaceInfoGo_eq (layer : UVLayer) (os : Bool) (fs : List BMFace)
    (i : Nat) :
    layerFaceInfoGo layer os i fs =
      ((List.enumFrom i fs).filter (fun p => !os || p.2.select)).map
        (fun p => faceRecord layer p.1 p.2) := by
  induction fs generalizing i with
  | nil => rfl
  | cons f fs ih =>
    by_cases hf : (!os || f.select) = true
    · simp only [layerFaceInfoGo, if_pos hf, List.enumFrom_cons,
        List.filter_cons, hf, List.map_cons, ih]
      simp
    · simp only [layerFaceInfoGo, List.enumFrom_cons, List.filter_cons]
      rw [if_neg hf]
      simp only [Bool.not_eq_true] at hf
      rw [hf]
      simp only [Bool.false_eq_true, if_false]
      exact ih (i + 1)

/-- C9: the extractor returns `None` exactly when some requested layer
collects zero included faces (with `only_selected`, a face is included when
selected); otherwise the result maps each layer name, in order, to one
record per included face in face-iteration order.  The extractor is a pure
function of the mesh — it never mutates it. -/
theorem get_src_face_info_characterization (bm : BMesh)
    (uv_layers : List UVLayer) (only_select : Bool) :
    (get_src_face_info bm uv_layers only_select = none ↔
      ∃ layer ∈ uv_layers,
        ((bm.faces.enum.filter (fun p => !only_select || p.2.select)).map
          (fun p => faceRecord layer p.1 p.2)) = []) ∧
    ∀ si, get_src_face_info bm uv_layers only_select = some si →
      si = uv_layers.map (fun layer =>
        (layer.name,
          (bm.faces.enum.filter (fun p => !only_select || p.2.select)).map
            (fun p => faceRecord layer p.1 p.2))) := by
  induction uv_layers with
  | nil =>
    constructor
    · simp [get_src_face_info]
    · intro si h
      simp only [get_src_face_info, Option.some_inj] at h
      rw [← h]
      rfl
  | cons layer rest ih =>
    have hfi : ∀ l : UVLayer, layerFaceInfoGo l only_select 0 bm.faces =
        (bm.faces.enum.filter (fun p => !only_select || p.2.select)).map
          (fun p => faceRecord l p.1 p.2) := by
      intro l
      rw [layerFaceInfoGo_eq]
      rfl
    by_cases hempty : layerFaceInfoGo layer only_select 0 bm.faces = []
    · constructor
      · constructor
        · intro _
          exact ⟨layer, List.mem_cons_self layer rest, by rw [← hfi layer]; exact hempty⟩
        · intro _
          simp [get_src_face_info, hempty]
      · intro si h
        simp [get_src_face_info, hempty] at h
    · constructor
      · constructor
        · intro h
          simp only [get_src_face_info, if_neg hempty] at h
          cases hrest : get_src_face_info bm rest only_select with
          | none =>
            obtain ⟨l, hl, hform⟩ := (ih.1).mp hrest
            exact ⟨l, List.mem_cons_of_mem layer hl, hform⟩
          | some tl => rw [hrest] at h; simp at h
        · intro h
          obtain ⟨l, hl, hform⟩ := h
          cases List.mem_cons.mp hl with
          | inl hhead =>
            rw [← hhead] at hempty
            rw [hfi l] at hempty
            exact absurd hform hempty
          | inr htail =>
            have hrest : get_src_face_info bm rest only_select = none :=
              (ih.1).mpr ⟨l, htail, hform⟩
            unfold get_src_face_info
            rw [if_neg hempty, hrest]
            rfl
      · intro si h
        simp only [get_src_face_info, if_neg hempty] at h
        cases hrest : get_src_face_info bm rest only_select with
        | none => rw [hrest] at h; simp at h
        | some tl =>
          rw [hrest] at h
          simp at h
          rw [← h, List.map_cons]
          rw [ih.2 tl hrest, hfi layer]

/-- Witness for C9: the example mesh with its single layer extracts to
exactly the characterized collection. -/
theorem get_src_face_info_characterization_witness :
    exampleSrcInfo = [exampleLayer].map (fun layer =>
      (layer.name,
        (exampleBM.faces.enum.filter (fun p => !true || p.2.select)).map
          (fun p => faceRecord layer p.1 p.2))) :=
  (get_src_face_info_characterization exampleBM [exampleLayer] true).2
    exampleSrcInfo rfl
